import Mathlib

/-
Verification of the cillow broker's dispatch and lifecycle engine against its
natural-language specification.

The development shallowly embeds the Python source:
  - `validate_environment`            (src/cillow/importhook.py)
  - `ClientManager` and its operations (src/cillow/server/client_manager.py)
  - `RequestWorker` request handlers   (src/cillow/server/request_worker.py)
  - the broker front-end receive step  (src/cillow/server/__init__.py, Server.run)

Filesystem effects (Path.expanduser().resolve() and the lib/site-packages
directory test) are abstracted into an `FS` record of two functions; worker
processes are represented by identifiers drawn from a spawn counter, and the
outputs a worker emits before its _COMPLETED sentinel are passed in as a list.
Python dictionaries (which preserve insertion order) are modelled as
association lists; Python exceptions become an `Except` error channel whose
error type distinguishes LookupError, KeyError, ValueError and plain
Exception, since `except KeyError` does not catch a plain LookupError.
-/

namespace Cillow

/-- A Python environment value: the `$system` sentinel or a filesystem path
(covering both `str` and `pathlib.Path` inputs). -/
inductive EnvValue
  | system
  | path (s : String)
deriving DecidableEq, Repr

/-- Abstraction of the filesystem operations used by `validate_environment`:
`resolve` models `Path(x).expanduser().resolve()` and `hasSitePackages p`
models `(p / "lib" / "site-packages").is_dir()`. -/
structure FS where
  resolve : String → String
  hasSitePackages : String → Bool

/-- Python exception values raised by the embedded code, separated by class
because `except KeyError` catches `KeyError` but not a plain `LookupError`. -/
inductive CError
  | lookupError (msg : String)
  | keyError (msg : String)
  | valueError (msg : String)
  | exception (msg : String)
deriving DecidableEq, Repr

/-- The `str(e)` payload of an exception value. -/
def CError.message : CError → String
  | .lookupError m => m
  | .keyError m => m
  | .valueError m => m
  | .exception m => m

/-- Python truthiness coercion `environment or "$system"` used by
`ClientManager.register`: the empty string is falsy. -/
def envOrSystem : EnvValue → EnvValue
  | .path "" => .system
  | e => e

/-- Embedding of `validate_environment` (src/cillow/importhook.py): the
`$system` sentinel passes through unchanged; any other value is user-expanded
and resolved, succeeds iff the resolved directory has `lib/site-packages`,
and otherwise raises `LookupError`. -/
def validate_environment (fs : FS) : EnvValue → Except CError EnvValue
  | .system => .ok .system
  | .path s =>
    let r := fs.resolve s
    if fs.hasSitePackages r then .ok (.path r)
    else .error (.lookupError ("Python environment " ++ r ++ " is invalid or not found."))

/-- One interpreter process record per environment; workers are identified by
their spawn index. -/
structure ClientInfo where
  current_environment : EnvValue
  current_interpreter : Nat
  default_environment : EnvValue
  interpreters : List (EnvValue × Nat)
deriving DecidableEq, Repr

/-- State of the `ClientManager`: the insertion-ordered client dictionary, the
next worker id to be spawned, and the list of workers that received `stop()`. -/
structure ClientManagerState where
  clients : List (String × ClientInfo)
  nextWorker : Nat
  stopped : List Nat
deriving DecidableEq, Repr

/-- The sizing values computed in `ClientManager.__init__`. -/
structure Limits where
  cpu_count : Nat
  max_interpreters : Nat
  interpreters_per_client : Nat
  max_clients : Nat
deriving DecidableEq, Repr

/-- Python `x or d` on an optional integer argument: both `None` and `0` fall
back to the default. -/
def pyOrNat : Option Nat → Nat → Nat
  | none, d => d
  | some 0, d => d
  | some (n + 1), _ => n + 1

/-- Lookup in a client's environment-to-worker dictionary. -/
def lookupEnv : List (EnvValue × Nat) → EnvValue → Option Nat
  | [], _ => none
  | (k, w) :: rest, e => if k = e then some w else lookupEnv rest e

/-- `dict.pop`'s removal effect on the environment dictionary. -/
def eraseEnv : List (EnvValue × Nat) → EnvValue → List (EnvValue × Nat)
  | [], _ => []
  | (k, w) :: rest, e => if k = e then rest else (k, w) :: eraseEnv rest e

/-- Lookup in the client dictionary (`self._clients.get(client_id)`). -/
def lookupClient : List (String × ClientInfo) → String → Option ClientInfo
  | [], _ => none
  | (k, v) :: rest, cid => if k = cid then some v else lookupClient rest cid

/-- In-place value replacement for an existing key of the client dictionary. -/
def updateClient : List (String × ClientInfo) → String → ClientInfo → List (String × ClientInfo)
  | [], _, _ => []
  | (k, v) :: rest, cid, ci =>
    if k = cid then (k, ci) :: rest else (k, v) :: updateClient rest cid ci

/-- `del self._clients[client_id]`. -/
def eraseClient : List (String × ClientInfo) → String → List (String × ClientInfo)
  | [], _ => []
  | (k, v) :: rest, cid => if k = cid then rest else (k, v) :: eraseClient rest cid

namespace ClientManager

/-- Embedding of `ClientManager.__init__`'s derived sizing
(src/cillow/server/client_manager.py, lines 50-53). -/
def mkLimits (cpu_count : Nat) (max_interpreters interpreters_per_client : Option Nat) :
    Limits :=
  let mi := min (pyOrNat max_interpreters cpu_count) cpu_count
  let ipc := pyOrNat interpreters_per_client (min 2 mi)
  ⟨cpu_count, mi, ipc, mi / ipc⟩

/-- `ClientManager.optimal_number_of_request_workers`. -/
def optimal_number_of_request_workers (lim : Limits) : Nat :=
  min (2 * lim.max_clients) lim.cpu_count

/-- `ClientManager.optimal_max_queue_size`. -/
def optimal_max_queue_size (lim : Limits) : Nat :=
  lim.max_clients * lim.interpreters_per_client * 2

/-- `ClientManager.total_active_processes`. -/
def total_active_processes (st : ClientManagerState) : Nat :=
  (st.clients.map (fun p => p.2.interpreters.length)).sum

/-- `ClientManager.get_info`. -/
def get_info (st : ClientManagerState) (cid : String) : Option ClientInfo :=
  lookupClient st.clients cid

/-- Embedding of `ClientManager.register`: a known client is a no-op; an
unknown client is admitted only below `max_clients`, after which the
environment is validated and a single fresh worker becomes both the default
and the current context. -/
def register (fs : FS) (lim : Limits) (st : ClientManagerState) (cid : String)
    (env : EnvValue) : Except CError ClientManagerState :=
  if (lookupClient st.clients cid).isSome then .ok st
  else if st.clients.length < lim.max_clients then
    match validate_environment fs (envOrSystem env) with
    | .error e => .error e
    | .ok v =>
      let w := st.nextWorker
      .ok ⟨st.clients ++ [(cid, ⟨v, w, v, [(v, w)]⟩)], w + 1, st.stopped⟩
  else .error (.exception "Client limit exceeded. Try again later.")

/-- Embedding of `ClientManager.switch_interpreter`. -/
def switch_interpreter (fs : FS) (lim : Limits) (st : ClientManagerState) (cid : String)
    (env : EnvValue) : Except CError (EnvValue × ClientManagerState) :=
  match lookupClient st.clients cid with
  | none => .error (.valueError ("Client " ++ cid ++ " not found."))
  | some info =>
    match validate_environment fs env with
    | .error e => .error e
    | .ok v =>
      if info.current_environment = v then .ok (v, st)
      else
        match lookupEnv info.interpreters v with
        | some w =>
          let info2 := { info with current_environment := v, current_interpreter := w }
          .ok (v, { st with clients := updateClient st.clients cid info2 })
        | none =>
          if info.interpreters.length < lim.interpreters_per_client ∧
              total_active_processes st < lim.max_interpreters then
            let w := st.nextWorker
            let info2 := { info with
              current_environment := v, current_interpreter := w,
              interpreters := info.interpreters ++ [(v, w)] }
            .ok (v, { st with clients := updateClient st.clients cid info2, nextWorker := w + 1 })
          else .error (.exception "Unable to create new interpreter due to process limit.")

/-- Embedding of `ClientManager.delete_interpreter`. The `try` block wraps
both the validation and the `dict.pop`, but the handler is `except KeyError`,
so the `LookupError` raised by `validate_environment` escapes while the
`KeyError` of a missing dictionary key is swallowed. -/
def delete_interpreter (fs : FS) (st : ClientManagerState) (cid : String)
    (env : EnvValue) : Except CError ClientManagerState :=
  match lookupClient st.clients cid with
  | none => .ok st
  | some info =>
    match validate_environment fs env with
    | .error e => .error e
    | .ok v =>
      match lookupEnv info.interpreters v with
      | none => .ok st
      | some w =>
        let info2 := { info with interpreters := eraseEnv info.interpreters v }
        .ok { st with
          clients := updateClient st.clients cid info2,
          stopped := st.stopped ++ [w] }

/-- Embedding of `ClientManager.remove`. -/
def remove (st : ClientManagerState) (cid : String) : ClientManagerState :=
  match lookupClient st.clients cid with
  | none => st
  | some info =>
    { st with
      clients := eraseClient st.clients cid,
      stopped := st.stopped ++ info.interpreters.map (fun p => p.2) }

end ClientManager

/-- The per-client record invariant claimed by the spec: the current and the
default environment are both keys of the client's interpreter dictionary. -/
def ClientInfo.wf (info : ClientInfo) : Bool :=
  (lookupEnv info.interpreters info.current_environment).isSome &&
  (lookupEnv info.interpreters info.default_environment).isSome

/-- The record invariant, over every live client of the registry. -/
def clientsWF (st : ClientManagerState) : Bool :=
  st.clients.all (fun p => p.2.wf)

/-- The three broker-to-client message-type tags. -/
inductive MsgType
  | request_done
  | request_exception
  | interpreter
deriving DecidableEq, Repr

/-- Frame bodies sent by the dispatcher, by provenance: empty bytes, a pickled
environment, a pickled environment list, a pickled worker output (abstracted
to its index), or an encoded error message. -/
inductive Body
  | empty
  | env (e : EnvValue)
  | envs (l : List EnvValue)
  | out (n : Nat)
  | err (s : String)
deriving DecidableEq, Repr

/-- A broker-to-client frame after the routing prefix: message type and body. -/
abbrev OutFrame := MsgType × Body

/-- The request variants dispatched by `RequestWorker.run`
(src/cillow/server/request_worker.py); the `GetEnvrionment` spelling is the
source's. Worker-produced payloads are supplied separately, so the
code/requirements fields are not carried here. -/
inductive Request
  | getEnvrionment (environment_type : String)
  | modifyInterpreter (environment : EnvValue) (mode : String)
  | installRequirements
  | runCode
  | disconnect
deriving DecidableEq, Repr

namespace RequestWorker

/-- Embedding of `RequestWorker._get_environment`: with no client record it
returns without writing; otherwise it answers `current` or `all` with a single
`request_done` frame (any other type string writes nothing). -/
def get_environment (info? : Option ClientInfo) (environment_type : String) :
    List OutFrame :=
  match info? with
  | none => []
  | some info =>
    if environment_type = "current" then
      [(MsgType.request_done, Body.env info.current_environment)]
    else if environment_type = "all" then
      [(MsgType.request_done, Body.envs (info.interpreters.map (fun p => p.1)))]
    else []

/-- Embedding of `RequestWorker._install_requirements`: with no client record
it returns without writing; otherwise every worker output (the emissions
before the `_completed` sentinel, passed as `outs`) is forwarded as an
`interpreter` frame and a final `request_done` with empty body is sent. -/
def install_requirements (info? : Option ClientInfo) (outs : List Nat) :
    List OutFrame :=
  match info? with
  | none => []
  | some _ =>
    outs.map (fun o => (MsgType.interpreter, Body.out o)) ++
      [(MsgType.request_done, Body.empty)]

/-- Embedding of `RequestWorker._run_code`: with no client record it returns
without writing; otherwise every worker output is forwarded as an
`interpreter` frame. The source sends no `request_done` afterwards. -/
def run_code (info? : Option ClientInfo) (outs : List Nat) : List OutFrame :=
  match info? with
  | none => []
  | some _ => outs.map (fun o => (MsgType.interpreter, Body.out o))

/-- Embedding of `RequestWorker._modify_interpreter`: the switch path answers
with the switched environment; the delete path deletes and then switches to
the client's default environment; any exception in either path becomes a
single `request_exception` frame. -/
def modify_interpreter (fs : FS) (lim : Limits) (st : ClientManagerState)
    (cid : String) (env : EnvValue) (mode : String) :
    ClientManagerState × List OutFrame :=
  if mode = "switch" then
    match ClientManager.switch_interpreter fs lim st cid env with
    | .ok (v, st2) => (st2, [(MsgType.request_done, Body.env v)])
    | .error e => (st, [(MsgType.request_exception, Body.err e.message)])
  else if mode = "delete" then
    match ClientManager.delete_interpreter fs st cid env with
    | .error e => (st, [(MsgType.request_exception, Body.err e.message)])
    | .ok st2 =>
      match ClientManager.get_info st2 cid with
      | none =>
        (st2, [(MsgType.request_exception,
          Body.err "AttributeError: NoneType object has no attribute default_environment")])
      | some info =>
        match ClientManager.switch_interpreter fs lim st2 cid info.default_environment with
        | .ok (v, st3) => (st3, [(MsgType.request_done, Body.env v)])
        | .error e => (st2, [(MsgType.request_exception, Body.err e.message)])
  else (st, [])

/-- Embedding of `RequestWorker._remove_client`. -/
def remove_client (st : ClientManagerState) (cid : String) :
    ClientManagerState × List OutFrame :=
  (ClientManager.remove st cid, [(MsgType.request_done, Body.empty)])

/-- Embedding of one iteration of `RequestWorker.run` after a request has been
dequeued and unpickled: registration (with the request's environment for
`ModifyInterpreter`, `$system` otherwise) whose failure yields a single
`request_exception` and skips dispatch; then dispatch per request variant.
`outs` lists what the current worker emits before `_completed` for the
streamed variants. -/
def handle (fs : FS) (lim : Limits) (st : ClientManagerState) (cid : String)
    (req : Request) (outs : List Nat) : ClientManagerState × List OutFrame :=
  let regEnv := match req with
    | .modifyInterpreter e _ => e
    | _ => EnvValue.system
  match ClientManager.register fs lim st cid regEnv with
  | .error e => (st, [(MsgType.request_exception, Body.err e.message)])
  | .ok st2 =>
    match req with
    | .getEnvrionment t => (st2, get_environment (ClientManager.get_info st2 cid) t)
    | .modifyInterpreter e m => modify_interpreter fs lim st2 cid e m
    | .installRequirements =>
      (st2, install_requirements (ClientManager.get_info st2 cid) outs)
    | .runCode => (st2, run_code (ClientManager.get_info st2 cid) outs)
    | .disconnect => remove_client st2 cid

end RequestWorker

namespace Server

/-- Result of one handled receive of the front-end reader: the frames sent
back on the socket (identity, type, body), the items enqueued on the request
queue, and whether control reaches the next loop iteration (`false` when an
uncaught exception escapes the inner `try`, which only catches `zmq.ZMQError`,
and so ends the receive loop). -/
structure FrontEndStep where
  sent : List (String × MsgType × String)
  enqueued : List (String × String)
  loopContinues : Bool
deriving DecidableEq, Repr

/-- Embedding of the body of `Server.run`'s receive handling
(src/cillow/server/__init__.py, lines 139-149) for one multi-part message.
With exactly 3 parts the request is enqueued when the queue has room and a
queue-full `request_exception` is sent otherwise. With any other part count
the code sends the invalid-framing `request_exception` to `frames[0]` (an
empty message instead raises `IndexError` there) and then — because the branch
does not `continue` — unpacking the frames raises `ValueError`; neither error
is a `zmq.ZMQError`, so it escapes the receive loop. -/
def handle_frames (queueLen maxQueue : Nat) (frames : List String) : FrontEndStep :=
  match frames with
  | [cid, _, body] =>
    if queueLen < maxQueue then ⟨[], [(cid, body)], true⟩
    else
      ⟨[(cid, MsgType.request_exception, "Server request queue is full. Try again later.")],
        [], true⟩
  | [] => ⟨[], [], false⟩
  | cid :: _ =>
    ⟨[(cid, MsgType.request_exception, "Invalid number of frames received")], [], false⟩

end Server

/- Helper lemmas about the association-list dictionaries. -/

theorem lookupEnv_append_of_some {l : List (EnvValue × Nat)} {k : EnvValue} {w : Nat}
    (x : EnvValue × Nat) (h : lookupEnv l k = some w) :
    lookupEnv (l ++ [x]) k = some w := by
  induction l with
  | nil => simp [lookupEnv] at h
  | cons hd tl ih =>
    obtain ⟨k0, w0⟩ := hd
    by_cases hk : k0 = k
    · simp [lookupEnv, hk] at h ⊢
      exact h
    · simp [lookupEnv, hk] at h ⊢
      exact ih h

theorem lookupEnv_append_self (l : List (EnvValue × Nat)) (k : EnvValue) (w : Nat) :
    (lookupEnv (l ++ [(k, w)]) k).isSome = true := by
  induction l with
  | nil => simp [lookupEnv]
  | cons hd tl ih =>
    obtain ⟨k0, w0⟩ := hd
    by_cases hk : k0 = k
    · simp [lookupEnv, hk]
    · simp [lookupEnv, hk]
      exact ih

theorem lookupEnv_erase_of_ne {l : List (EnvValue × Nat)} {k v : EnvValue}
    (h : k ≠ v) : lookupEnv (eraseEnv l v) k = lookupEnv l k := by
  induction l with
  | nil => simp [eraseEnv]
  | cons hd tl ih =>
    obtain ⟨k0, w0⟩ := hd
    by_cases hv : k0 = v
    · have hk : k0 ≠ k := by
        rw [hv]
        exact fun hh => h hh.symm
      simp [eraseEnv, hv, lookupEnv, hk, Ne.symm h]
    · by_cases hk : k0 = k
      · simp [eraseEnv, lookupEnv, hv, hk, h]
      · simp [eraseEnv, lookupEnv, hv, hk, ih]

theorem all_updateClient {P : String × ClientInfo → Bool}
    {l : List (String × ClientInfo)} (hall : l.all P = true)
    (cid : String) (ci : ClientInfo) (hP : P (cid, ci) = true) :
    (updateClient l cid ci).all P = true := by
  induction l with
  | nil => simp [updateClient]
  | cons hd tl ih =>
    obtain ⟨k0, v0⟩ := hd
    simp only [List.all_cons, Bool.and_eq_true] at hall
    by_cases hk : k0 = cid
    · subst hk
      simp [updateClient, List.all_cons, hP, hall.2]
    · simp [updateClient, hk, List.all_cons, hall.1, ih hall.2]

theorem all_eraseClient {P : String × ClientInfo → Bool}
    {l : List (String × ClientInfo)} (hall : l.all P = true) (cid : String) :
    (eraseClient l cid).all P = true := by
  induction l with
  | nil => simp [eraseClient]
  | cons hd tl ih =>
    obtain ⟨k0, v0⟩ := hd
    simp only [List.all_cons, Bool.and_eq_true] at hall
    by_cases hk : k0 = cid
    · simp [eraseClient, hk, hall.2]
    · simp [eraseClient, hk, List.all_cons, hall.1, ih hall.2]

theorem all_lookupClient {P : String × ClientInfo → Bool}
    {l : List (String × ClientInfo)} (hall : l.all P = true)
    {cid : String} {info : ClientInfo} (h : lookupClient l cid = some info) :
    P (cid, info) = true := by
  induction l with
  | nil => simp [lookupClient] at h
  | cons hd tl ih =>
    obtain ⟨k0, v0⟩ := hd
    simp only [List.all_cons, Bool.and_eq_true] at hall
    by_cases hk : k0 = cid
    · subst hk
      simp [lookupClient] at h
      subst h
      exact hall.1
    · simp [lookupClient, hk] at h
      exact ih hall.2 h

theorem pyOrNat_eq_getD (o : Option Nat) (d : Nat)
    (h : o = none ∨ ∃ n, 0 < n ∧ o = some n) : pyOrNat o d = o.getD d := by
  rcases h with rfl | ⟨n, hn, rfl⟩
  · rfl
  · cases n with
    | zero => exact absurd hn (lt_irrefl 0)
    | succ k => rfl

/- Concrete fixtures used by witnesses and counterexamples. -/

/-- A filesystem in which every path resolves to itself and every directory
contains `lib/site-packages`. -/
def fsAccept : FS := ⟨fun s => s, fun _ => true⟩

/-- A filesystem in which every path resolves to itself and no directory
contains `lib/site-packages`. -/
def fsReject : FS := ⟨fun s => s, fun _ => false⟩

/-- A client owning a single worker for the system environment. -/
def infoSys : ClientInfo := ⟨EnvValue.system, 0, EnvValue.system, [(EnvValue.system, 0)]⟩

/-- A registry holding just the client `"c"` with its system worker. -/
def stOne : ClientManagerState := ⟨[("c", infoSys)], 1, []⟩

/-- A client owning workers for the system environment and for `/e`, with the
system environment current and default. -/
def infoTwo : ClientInfo :=
  ⟨EnvValue.system, 0, EnvValue.system, [(EnvValue.system, 0), (EnvValue.path "/e", 1)]⟩

/-- A registry holding just the client `"c"` with its two workers. -/
def stTwo : ClientManagerState := ⟨[("c", infoTwo)], 2, []⟩

/-- Limits as computed for one CPU and one interpreter per client: one
interpreter overall, one client. -/
def limTiny : Limits := ClientManager.mkLimits 1 (some 1) (some 1)

/-- Claim C7: `validate_environment` returns the `$system` sentinel unchanged
when the input is `$system`; any other input is user-expanded and resolved,
succeeds with the resolved path exactly when that path contains a
`lib/site-packages` directory, and raises a lookup error otherwise. -/
theorem validate_environment_claim (fs : FS) :
    validate_environment fs EnvValue.system = Except.ok EnvValue.system ∧
    (∀ s : String,
      (fs.hasSitePackages (fs.resolve s) = true →
        validate_environment fs (EnvValue.path s) =
          Except.ok (EnvValue.path (fs.resolve s))) ∧
      (fs.hasSitePackages (fs.resolve s) = false →
        ∃ m, validate_environment fs (EnvValue.path s) =
          Except.error (CError.lookupError m))) := by
  refine ⟨rfl, fun s => ⟨fun h => ?_, fun h => ?_⟩⟩
  · simp [validate_environment, h]
  · refine ⟨"Python environment " ++ fs.resolve s ++ " is invalid or not found.", ?_⟩
    simp [validate_environment, h]

theorem validate_environment_claim_witness :
    validate_environment fsAccept (EnvValue.path "/env") =
      Except.ok (EnvValue.path "/env") :=
  ((validate_environment_claim fsAccept).2 "/env").1 rfl

/-- Claim C8: the registry's derived sizes: `max_interpreters` is the
configured value (or the CPU count) clamped to the CPU count;
`interpreters_per_client` is the configured value or `min 2 max_interpreters`;
`max_clients` is their integer quotient; the optimal worker-thread count is
`min (2 * max_clients) cpu_count`; the optimal queue capacity is
`max_clients * interpreters_per_client * 2`. -/
theorem derived_sizes_claim (cpu : Nat) (mi ipc : Option Nat)
    (hmi : mi = none ∨ ∃ n, 0 < n ∧ mi = some n)
    (hipc : ipc = none ∨ ∃ n, 0 < n ∧ ipc = some n) :
    (ClientManager.mkLimits cpu mi ipc).max_interpreters = min (mi.getD cpu) cpu ∧
    (ClientManager.mkLimits cpu mi ipc).interpreters_per_client =
      ipc.getD (min 2 (ClientManager.mkLimits cpu mi ipc).max_interpreters) ∧
    (ClientManager.mkLimits cpu mi ipc).max_clients =
      (ClientManager.mkLimits cpu mi ipc).max_interpreters /
        (ClientManager.mkLimits cpu mi ipc).interpreters_per_client ∧
    ClientManager.optimal_number_of_request_workers (ClientManager.mkLimits cpu mi ipc) =
      min (2 * (ClientManager.mkLimits cpu mi ipc).max_clients) cpu ∧
    ClientManager.optimal_max_queue_size (ClientManager.mkLimits cpu mi ipc) =
      (ClientManager.mkLimits cpu mi ipc).max_clients *
        (ClientManager.mkLimits cpu mi ipc).interpreters_per_client * 2 := by
  have h1 : pyOrNat mi cpu = mi.getD cpu := pyOrNat_eq_getD mi cpu hmi
  have h2 : ∀ d, pyOrNat ipc d = ipc.getD d := fun d => pyOrNat_eq_getD ipc d hipc
  refine ⟨?_, ?_, ?_, ?_, ?_⟩ <;>
    simp [ClientManager.mkLimits, ClientManager.optimal_number_of_request_workers,
      ClientManager.optimal_max_queue_size, h1, h2]

theorem derived_sizes_claim_witness :
    (ClientManager.mkLimits 8 (some 4) none).max_interpreters =
      min ((some 4).getD 8) 8 :=
  (derived_sizes_claim 8 (some 4) none (Or.inr ⟨4, by decide, rfl⟩) (Or.inl rfl)).1

/-- Claim C9: when the registry holds no record for the client at the moment
the dispatcher runs the `GetEnvrionment`, `InstallRequirements`, or `RunCode`
handler, the handler returns without sending any frame at all, not even a
terminator. -/
theorem handlers_silent_without_client_claim :
    (∀ t, RequestWorker.get_environment none t = []) ∧
    (∀ outs, RequestWorker.install_requirements none outs = []) ∧
    (∀ outs, RequestWorker.run_code none outs = []) :=
  ⟨fun _ => rfl, fun _ => rfl, fun _ => rfl⟩

/-- Claim C4: `register` is a no-op for an already-registered client (the
second of two consecutive registrations changes nothing and never raises,
whatever the length of the registry and whatever the environment argument);
an unknown client at capacity raises exactly "Client limit exceeded. Try
again later."; otherwise the environment is validated and a single fresh
worker is installed as both the client's default and current context. -/
theorem register_claim (fs : FS) (lim : Limits) (st : ClientManagerState)
    (cid : String) (env : EnvValue) :
    ((lookupClient st.clients cid).isSome = true →
      ClientManager.register fs lim st cid env = Except.ok st) ∧
    (lookupClient st.clients cid = none →
      lim.max_clients ≤ st.clients.length →
      ClientManager.register fs lim st cid env =
        Except.error (CError.exception "Client limit exceeded. Try again later.")) ∧
    (∀ v, lookupClient st.clients cid = none →
      st.clients.length < lim.max_clients →
      validate_environment fs (envOrSystem env) = Except.ok v →
      ClientManager.register fs lim st cid env =
        Except.ok (ClientManagerState.mk
          (st.clients ++ [(cid, ClientInfo.mk v st.nextWorker v [(v, st.nextWorker)])])
          (st.nextWorker + 1) st.stopped)) := by
  refine ⟨fun h => ?_, fun h hlen => ?_, fun v h hlen hv => ?_⟩
  · simp [ClientManager.register, h]
  · have hnot : ¬ st.clients.length < lim.max_clients := Nat.not_lt.mpr hlen
    simp [ClientManager.register, h, hnot]
  · simp [ClientManager.register, h, hlen, hv]

theorem register_claim_witness :
    ClientManager.register fsReject limTiny stOne "c" (EnvValue.path "/bad") =
      Except.ok stOne :=
  (register_claim fsReject limTiny stOne "c" (EnvValue.path "/bad")).1 (by decide)

/-- Claim C10: `register` checks the client-count cap before validating the
environment: an unknown client at capacity gets the client-limit error even
for an invalid environment, so `register` can only raise a lookup error when
a client slot is free. -/
theorem register_cap_before_validation_claim (fs : FS) (lim : Limits)
    (st : ClientManagerState) (cid : String) (env : EnvValue) :
    (lookupClient st.clients cid = none →
      lim.max_clients ≤ st.clients.length →
      ClientManager.register fs lim st cid env =
        Except.error (CError.exception "Client limit exceeded. Try again later.")) ∧
    (∀ m, ClientManager.register fs lim st cid env =
        Except.error (CError.lookupError m) →
      st.clients.length < lim.max_clients) := by
  constructor
  · intro h hlen
    have hnot : ¬ st.clients.length < lim.max_clients := Nat.not_lt.mpr hlen
    simp [ClientManager.register, h, hnot]
  · intro m hreg
    by_cases hlen : st.clients.length < lim.max_clients
    · exact hlen
    · exfalso
      by_cases hknown : (lookupClient st.clients cid).isSome = true
      · simp [ClientManager.register, hknown] at hreg
      · simp [ClientManager.register, hknown, hlen] at hreg

theorem register_cap_before_validation_claim_witness :
    ClientManager.register fsReject limTiny stOne "d" (EnvValue.path "/bad") =
      Except.error (CError.exception "Client limit exceeded. Try again later.") :=
  (register_cap_before_validation_claim fsReject limTiny stOne "d"
    (EnvValue.path "/bad")).1 (by decide) (by decide)

/-- Claim C3: for a registered client and a valid environment,
`switch_interpreter` returns the validated environment unchanged when it
equals the client's current environment; with an existing worker for it, the
current context switches to that worker and the environment is returned; with
no worker, one is created and switched to exactly when both the per-client
count is below `interpreters_per_client` and the total active worker count is
below `max_interpreters`, and otherwise the call raises exactly "Unable to
create new interpreter due to process limit."; an unknown client raises a
value error. -/
theorem switch_interpreter_claim (fs : FS) (lim : Limits) (st : ClientManagerState)
    (cid : String) (env : EnvValue) :
    (lookupClient st.clients cid = none →
      ∃ m, ClientManager.switch_interpreter fs lim st cid env =
        Except.error (CError.valueError m)) ∧
    (∀ info v, lookupClient st.clients cid = some info →
      validate_environment fs env = Except.ok v →
      ((info.current_environment = v →
        ClientManager.switch_interpreter fs lim st cid env = Except.ok (v, st)) ∧
      (∀ w, info.current_environment ≠ v →
        lookupEnv info.interpreters v = some w →
        ClientManager.switch_interpreter fs lim st cid env =
          Except.ok (v, ClientManagerState.mk
            (updateClient st.clients cid
              (ClientInfo.mk v w info.default_environment info.interpreters))
            st.nextWorker st.stopped)) ∧
      (info.current_environment ≠ v →
        lookupEnv info.interpreters v = none →
        info.interpreters.length < lim.interpreters_per_client →
        ClientManager.total_active_processes st < lim.max_interpreters →
        ClientManager.switch_interpreter fs lim st cid env =
          Except.ok (v, ClientManagerState.mk
            (updateClient st.clients cid
              (ClientInfo.mk v st.nextWorker info.default_environment
                (info.interpreters ++ [(v, st.nextWorker)])))
            (st.nextWorker + 1) st.stopped)) ∧
      (info.current_environment ≠ v →
        lookupEnv info.interpreters v = none →
        ¬(info.interpreters.length < lim.interpreters_per_client ∧
          ClientManager.total_active_processes st < lim.max_interpreters) →
        ClientManager.switch_interpreter fs lim st cid env =
          Except.error (CError.exception
            "Unable to create new interpreter due to process limit.")))) := by
  constructor
  · intro h
    exact ⟨"Client " ++ cid ++ " not found.",
      by simp [ClientManager.switch_interpreter, h]⟩
  · intro info v hlc hval
    refine ⟨fun hcur => ?_, fun w hne hw => ?_, fun hne hw hlen htot => ?_,
      fun hne hw hnot => ?_⟩
    · simp [ClientManager.switch_interpreter, hlc, hval, hcur]
    · simp [ClientManager.switch_interpreter, hlc, hval, hne, hw]
    · simp [ClientManager.switch_interpreter, hlc, hval, hne, hw, hlen, htot]
    · simp [ClientManager.switch_interpreter, hlc, hval, hne, hw, hnot]

theorem switch_interpreter_claim_witness :
    ∃ m, ClientManager.switch_interpreter fsAccept limTiny stOne "nobody"
      EnvValue.system = Except.error (CError.valueError m) :=
  (switch_interpreter_claim fsAccept limTiny stOne "nobody" EnvValue.system).1
    (by decide)

/-- Claim C5 (as the code actually behaves): on a multi-part message whose
part count is not 3, the front-end sends the invalid-framing
`request_exception` to the supplied identity and enqueues nothing, but the
receive loop does NOT continue: the missing `continue` lets the subsequent
3-way unpacking raise `ValueError`, which only the outer handler catches, so
the reader thread leaves its loop. -/
theorem front_end_bad_framing_claim (queueLen maxQueue : Nat) (cid : String)
    (rest : List String) (h : (cid :: rest).length ≠ 3) :
    Server.handle_frames queueLen maxQueue (cid :: rest) =
      ⟨[(cid, MsgType.request_exception, "Invalid number of frames received")],
        [], false⟩ := by
  match rest with
  | [] => rfl
  | [a] => rfl
  | [a, b] => exact absurd rfl h
  | a :: b :: c :: rs => rfl

theorem front_end_bad_framing_claim_witness :
    Server.handle_frames 0 4 ["A", "req"] =
      ⟨[("A", MsgType.request_exception, "Invalid number of frames received")],
        [], false⟩ :=
  front_end_bad_framing_claim 0 4 "A" ["req"] (by decide)

/-- Claim C1 (as the code actually behaves): a dispatched `RunCode` request
for a registered client forwards every worker output frame as an
`interpreter` frame, but the dispatcher never emits a terminator: every frame
of the request is tagged `interpreter` and no `request_done` follows the
worker's `_completed` sentinel. -/
theorem run_code_no_terminator_claim (fs : FS) (lim : Limits)
    (st : ClientManagerState) (cid : String) (outs : List Nat)
    (info : ClientInfo) (h : lookupClient st.clients cid = some info) :
    (RequestWorker.handle fs lim st cid Request.runCode outs).2 =
      outs.map (fun o => (MsgType.interpreter, Body.out o)) ∧
    ∀ f ∈ (RequestWorker.handle fs lim st cid Request.runCode outs).2,
      f.1 = MsgType.interpreter := by
  have hreg : ClientManager.register fs lim st cid EnvValue.system = Except.ok st := by
    simp [ClientManager.register, h]
  have hframes : (RequestWorker.handle fs lim st cid Request.runCode outs).2 =
      outs.map (fun o => (MsgType.interpreter, Body.out o)) := by
    simp [RequestWorker.handle, hreg, ClientManager.get_info, h, RequestWorker.run_code]
  refine ⟨hframes, fun f hf => ?_⟩
  rw [hframes] at hf
  simp only [List.mem_map] at hf
  obtain ⟨o, _, hfo⟩ := hf
  rw [← hfo]

theorem run_code_no_terminator_claim_witness :
    (RequestWorker.handle fsAccept limTiny stOne "c" Request.runCode [5, 7]).2 =
      [(MsgType.interpreter, Body.out 5), (MsgType.interpreter, Body.out 7)] :=
  (run_code_no_terminator_claim fsAccept limTiny stOne "c" [5, 7] infoSys
    (by decide)).1

/-- Counterexample to claim C6: for a registered client and an invalid
environment path — which is in particular not present in the client's
interpreters map — `delete_interpreter` is not a silent no-op: the
`LookupError` raised by `validate_environment` is not caught by the
`except KeyError` handler and propagates to the caller. -/
theorem delete_interpreter_raises_on_invalid_env :
    ClientManager.delete_interpreter fsReject stOne "c" (EnvValue.path "/bad") =
      Except.error (CError.lookupError
        "Python environment /bad is invalid or not found.") := rfl

/-- Claim C6 as amended: `delete_interpreter` is a silent no-op when the
client is unknown, or when the environment validates to a value absent from
the client's interpreters map; when validation itself fails, the lookup error
propagates; when the pair exists, the worker is removed from the map and
stopped. -/
theorem delete_interpreter_amended_claim (fs : FS) (st : ClientManagerState)
    (cid : String) (env : EnvValue) :
    (lookupClient st.clients cid = none →
      ClientManager.delete_interpreter fs st cid env = Except.ok st) ∧
    (∀ info v, lookupClient st.clients cid = some info →
      validate_environment fs env = Except.ok v →
      lookupEnv info.interpreters v = none →
      ClientManager.delete_interpreter fs st cid env = Except.ok st) ∧
    (∀ info e, lookupClient st.clients cid = some info →
      validate_environment fs env = Except.error e →
      ClientManager.delete_interpreter fs st cid env = Except.error e) ∧
    (∀ info v w, lookupClient st.clients cid = some info →
      validate_environment fs env = Except.ok v →
      lookupEnv info.interpreters v = some w →
      ClientManager.delete_interpreter fs st cid env =
        Except.ok (ClientManagerState.mk
          (updateClient st.clients cid
            (ClientInfo.mk info.current_environment info.current_interpreter
              info.default_environment (eraseEnv info.interpreters v)))
          st.nextWorker (st.stopped ++ [w]))) := by
  refine ⟨fun h => ?_, fun info v hlc hval hw => ?_, fun info e hlc hval => ?_,
    fun info v w hlc hval hw => ?_⟩
  · simp [ClientManager.delete_interpreter, h]
  · simp [ClientManager.delete_interpreter, hlc, hval, hw]
  · simp [ClientManager.delete_interpreter, hlc, hval]
  · simp [ClientManager.delete_interpreter, hlc, hval, hw]

theorem delete_interpreter_amended_claim_witness :
    ClientManager.delete_interpreter fsAccept stOne "nobody" EnvValue.system =
      Except.ok stOne :=
  (delete_interpreter_amended_claim fsAccept stOne "nobody" EnvValue.system).1
    (by decide)

/-- Counterexample to claim C2: deleting the client's current (here also
default) environment leaves a registry state in which the client's current
environment is no longer a key of its interpreters map, so the record
invariant does not hold immediately after `delete_interpreter` returns. -/
theorem delete_interpreter_breaks_record_invariant :
    clientsWF stOne = true ∧
    ClientManager.delete_interpreter fsAccept stOne "c" EnvValue.system =
      Except.ok (ClientManagerState.mk
        [("c", ClientInfo.mk EnvValue.system 0 EnvValue.system [])] 1 [0]) ∧
    clientsWF (ClientManagerState.mk
        [("c", ClientInfo.mk EnvValue.system 0 EnvValue.system [])] 1 [0]) = false :=
  ⟨rfl, rfl, rfl⟩

/-- Claim C2 as amended: the record invariant — every live client's current
and default environments are keys of its interpreters map — is preserved by
`register`, `switch_interpreter` and `remove`, and by `delete_interpreter`
whenever the client is unknown, the environment is absent from the client's
map, or the deleted environment differs from both the client's current and
its default environment; deleting the current or the default environment is
the one operation that can break it. -/
theorem registry_invariant_amended_claim (fs : FS) (lim : Limits)
    (st : ClientManagerState) (cid : String) (env : EnvValue)
    (hwf : clientsWF st = true) :
    (∀ st2, ClientManager.register fs lim st cid env = Except.ok st2 →
      clientsWF st2 = true) ∧
    (∀ v st2, ClientManager.switch_interpreter fs lim st cid env =
        Except.ok (v, st2) → clientsWF st2 = true) ∧
    (lookupClient st.clients cid = none →
      ∀ st2, ClientManager.delete_interpreter fs st cid env = Except.ok st2 →
      clientsWF st2 = true) ∧
    (∀ info v, lookupClient st.clients cid = some info →
      validate_environment fs env = Except.ok v →
      lookupEnv info.interpreters v = none →
      ∀ st2, ClientManager.delete_interpreter fs st cid env = Except.ok st2 →
      clientsWF st2 = true) ∧
    (∀ info v, lookupClient st.clients cid = some info →
      validate_environment fs env = Except.ok v →
      v ≠ info.current_environment →
      v ≠ info.default_environment →
      ∀ st2, ClientManager.delete_interpreter fs st cid env = Except.ok st2 →
      clientsWF st2 = true) ∧
    clientsWF (ClientManager.remove st cid) = true := by
  refine ⟨?_, ?_, ?_, ?_, ?_, ?_⟩
  · -- register
    intro st2 hreg
    by_cases hknown : (lookupClient st.clients cid).isSome = true
    · simp [ClientManager.register, hknown] at hreg
      rw [← hreg]
      exact hwf
    · by_cases hlen : st.clients.length < lim.max_clients
      · cases hval : validate_environment fs (envOrSystem env) with
        | error e => simp [ClientManager.register, hknown, hlen, hval] at hreg
        | ok v =>
          simp [ClientManager.register, hknown, hlen, hval] at hreg
          rw [← hreg]
          simp [clientsWF, List.all_append] at hwf ⊢
          exact ⟨hwf, by simp [ClientInfo.wf, lookupEnv]⟩
      · simp [ClientManager.register, hknown, hlen] at hreg
  · -- switch_interpreter
    intro v st2 hsw
    cases hlc : lookupClient st.clients cid with
    | none => simp [ClientManager.switch_interpreter, hlc] at hsw
    | some info =>
      have hinfo : info.wf = true := by
        have := all_lookupClient (P := fun p => p.2.wf) hwf hlc
        simpa using this
      simp only [ClientInfo.wf, Bool.and_eq_true, Option.isSome_iff_exists] at hinfo
      obtain ⟨⟨wc, hwc⟩, ⟨wd, hwd⟩⟩ := hinfo
      cases hval : validate_environment fs env with
      | error e => simp [ClientManager.switch_interpreter, hlc, hval] at hsw
      | ok v0 =>
        by_cases hcur : info.current_environment = v0
        · simp [ClientManager.switch_interpreter, hlc, hval, hcur] at hsw
          rw [← hsw.2]
          exact hwf
        · cases hle : lookupEnv info.interpreters v0 with
          | some w =>
            simp [ClientManager.switch_interpreter, hlc, hval, hcur, hle] at hsw
            rw [← hsw.2]
            refine all_updateClient hwf cid _ ?_
            simp [ClientInfo.wf, hle, hwd]
          | none =>
            by_cases hlim : info.interpreters.length < lim.interpreters_per_client ∧
                ClientManager.total_active_processes st < lim.max_interpreters
            · simp [ClientManager.switch_interpreter, hlc, hval, hcur, hle, hlim] at hsw
              rw [← hsw.2]
              refine all_updateClient hwf cid _ ?_
              have hc : (lookupEnv (info.interpreters ++ [(v0, st.nextWorker)]) v0).isSome
                  = true := lookupEnv_append_self info.interpreters v0 st.nextWorker
              have hd : lookupEnv (info.interpreters ++ [(v0, st.nextWorker)])
                  info.default_environment = some wd :=
                lookupEnv_append_of_some (v0, st.nextWorker) hwd
              simp [ClientInfo.wf, hc, hd]
            · simp [ClientManager.switch_interpreter, hlc, hval, hcur, hle, hlim] at hsw
  · -- delete_interpreter, unknown client
    intro h st2 hdel
    simp [ClientManager.delete_interpreter, h] at hdel
    rw [← hdel]
    exact hwf
  · -- delete_interpreter, environment absent
    intro info v hlc hval hle st2 hdel
    simp [ClientManager.delete_interpreter, hlc, hval, hle] at hdel
    rw [← hdel]
    exact hwf
  · -- delete_interpreter, deleted env differs from current and default
    intro info v hlc hval hnc hnd st2 hdel
    have hinfo : info.wf = true := by
      have := all_lookupClient (P := fun p => p.2.wf) hwf hlc
      simpa using this
    simp only [ClientInfo.wf, Bool.and_eq_true] at hinfo
    cases hle : lookupEnv info.interpreters v with
    | none =>
      simp [ClientManager.delete_interpreter, hlc, hval, hle] at hdel
      rw [← hdel]
      exact hwf
    | some w =>
      simp [ClientManager.delete_interpreter, hlc, hval, hle] at hdel
      rw [← hdel]
      refine all_updateClient hwf cid _ ?_
      have hc := lookupEnv_erase_of_ne (l := info.interpreters) (Ne.symm hnc)
      have hd := lookupEnv_erase_of_ne (l := info.interpreters) (Ne.symm hnd)
      simp [ClientInfo.wf, hc, hd, hinfo.1, hinfo.2]
  · -- remove
    cases hlc : lookupClient st.clients cid with
    | none => simp [ClientManager.remove, hlc, hwf]
    | some info =>
      simp only [ClientManager.remove, hlc]
      exact all_eraseClient hwf cid

theorem registry_invariant_amended_claim_witness :
    clientsWF (ClientManagerState.mk
      [("c", ClientInfo.mk EnvValue.system 0 EnvValue.system
        [(EnvValue.system, 0)])] 2 [1]) = true :=
  (registry_invariant_amended_claim fsAccept limTiny stTwo "c"
      (EnvValue.path "/e") (by decide)).2.2.2.2.1 infoTwo (EnvValue.path "/e")
    (by decide) rfl (by decide) (by decide) _ rfl

end Cillow
